import Mathlib

/-!
Verification of the document-assembly and dual-pipeline orchestration logic
of src/librustdoc/markdown.rs: metadata splitting, fragment loading, page
assembly, and the render/test pipelines with their exit-code classification.

Text is modelled as `List Char` (the UTF-8 decoded contents of a Rust
`String`); file paths are `String`. Filesystem reads, output-file creation,
the final write, and the external markdown renderer are modelled as an
explicit environment, and the side effects of a pipeline run (files read,
the process-wide playground toggle, output creation, the final write) are
recorded as an event trace.
-/

/-- Result of load_string: an I/O error (Err), bytes that are not valid
UTF-8 (Ok(None)), or the decoded text (Ok(Some(s))). -/
inductive LoadResult where
  | unreadable : LoadResult
  | notUtf8 : LoadResult
  | ok : List Char → LoadResult
deriving DecidableEq

/-- The text carried by an ok result (empty for the failure results). -/
def LoadResult.okContent : LoadResult → List Char
  | .ok s => s
  | _ => []

/-- Whether a load succeeded. -/
def LoadResult.isOk : LoadResult → Bool
  | .ok _ => true
  | _ => false

/-- Unicode White_Space, the class used by char::is_whitespace and hence by
trim_left (Unicode 6 property tables, as shipped with the 2014 toolchain). -/
def rustIsWhitespace (c : Char) : Bool :=
  let n := c.toNat
  (0x09 ≤ n && n ≤ 0x0D) || n == 0x20 || n == 0x85 || n == 0xA0 ||
  n == 0x1680 || n == 0x180E || (0x2000 ≤ n && n ≤ 0x200A) ||
  n == 0x2028 || n == 0x2029 || n == 0x202F || n == 0x205F || n == 0x3000

/-- str::trim_left: drop the leading run of whitespace characters. -/
def trimLeft (s : List Char) : List Char :=
  s.dropWhile rustIsWhitespace

/-- str::lines of the 2014 standard library: the text split at each
newline byte, a trailing newline not producing a final empty line, and the
empty text yielding no lines. -/
def rustLines (s : List Char) : List (List Char) :=
  if hs : s = [] then []
  else if hd : (s.dropWhile (fun c => c != '\n')) = [] then
    [s.takeWhile (fun c => c != '\n')]
  else
    s.takeWhile (fun c => c != '\n') :: rustLines ((s.dropWhile (fun c => c != '\n')).tail)
termination_by s.length
decreasing_by
  have h1 : (s.dropWhile (fun c => c != '\n')).length ≤ s.length :=
    (List.dropWhile_suffix (fun c => c != '\n')).length_le
  have h2 : (s.dropWhile (fun c => c != '\n')).length ≠ 0 := by
    simpa [List.length_eq_zero] using hd
  simp only [List.length_tail]
  omega

/-- extract_leading_metadata: walk the leading lines of the text; a line
whose first character is the marker contributes the line with the marker
removed and following whitespace trimmed; the first line that does not
qualify stops the scan, and the text from that line onward (the offset
based slice of the original) is the body. If every line qualifies the body
is empty. -/
def extract_leading_metadata (s : List Char) : List (List Char) × List Char :=
  if hs : s = [] then ([], [])
  else if (s.takeWhile (fun c => c != '\n')).head? = some '%' then
    let r := extract_leading_metadata ((s.dropWhile (fun c => c != '\n')).tail)
    (trimLeft ((s.takeWhile (fun c => c != '\n')).drop 1) :: r.1, r.2)
  else ([], s)
termination_by s.length
decreasing_by
  have h1 : (s.dropWhile (fun c => c != '\n')).length ≤ s.length :=
    (List.dropWhile_suffix (fun c => c != '\n')).length_le
  have h2 : s.length ≠ 0 := by simpa [List.length_eq_zero] using hs
  simp only [List.length_tail]
  omega

/-- load_external_files: concatenate each named file's content followed by
one newline; None as soon as any file fails to load. -/
def load_external_files (fs : String → LoadResult) : List String → Option (List Char)
  | [] => some []
  | name :: rest =>
    match fs name with
    | .ok s =>
      match load_external_files fs rest with
      | some out => some (s ++ '\n' :: out)
      | none => none
    | _ => none

/-- html::escape::Escape, applied to the title before it is substituted
into the page: the five characters significant to HTML are replaced by
entity references, all other characters pass through unchanged. -/
def escapeHtml : List Char → List Char
  | [] => []
  | c :: rest =>
    (if c = '<' then ('&' :: 'l' :: 't' :: ';' :: [])
     else if c = '>' then ('&' :: 'g' :: 't' :: ';' :: [])
     else if c = '&' then ('&' :: 'a' :: 'm' :: 'p' :: ';' :: [])
     else if c = '\'' then ('&' :: '#' :: '3' :: '9' :: ';' :: [])
     else if c = '"' then ('&' :: 'q' :: 'u' :: 'o' :: 't' :: ';' :: [])
     else [c]) ++ escapeHtml rest

/-- The stylesheet block: one link tag per --markdown-css value, each
followed by a newline, in the order given. -/
def cssLinks (names : List String) : List Char :=
  (names.map (fun name =>
    "<link rel=\"stylesheet\" type=\"text/css\" href=\"".toList ++
      name.toList ++ "\">\n".toList)).flatten

/-- Template text before the title slot of the head. -/
def segHeadA : List Char :=
  ("<!DOCTYPE html>\n<html lang=\"en\">\n<head>\n    <meta charset=\"utf-8\">\n" ++
   "    <meta name=\"generator\" content=\"rustdoc\">\n    <title>").toList

/-- Template text between the title slot and the stylesheet slot. -/
def segHeadB : List Char := "</title>\n\n    ".toList

/-- Template text between the stylesheet slot and the in-header slot. -/
def segHeadC : List Char := "\n    ".toList

/-- Template text from the in-header slot to the before-content slot. -/
def segBodyA : List Char :=
  ("\n</head>\n<body>\n    <!--[if lte IE 8]>\n    <div class=\"warning\">\n" ++
   "        This old browser is unsupported and will most likely display funky\n" ++
   "        things.\n    </div>\n    <![endif]-->\n\n    ").toList

/-- Template text between the before-content slot and the h1 title slot. -/
def segBodyB : List Char := "\n    <h1 class=\"title\">".toList

/-- Template text between the h1 title slot and the rendered body slot. -/
def segBodyC : List Char := "</h1>\n    ".toList

/-- Template text between the rendered body slot and the playground slot. -/
def segBodyD : List Char :=
  "\n    <script type=\"text/javascript\">\n        window.playgroundUrl = \"".toList

/-- Template text between the playground slot and the after-content slot. -/
def segBodyE : List Char := "\";\n    </script>\n    ".toList

/-- Template text after the after-content slot. -/
def segBodyF : List Char := "\n</body>\n</html>".toList

/-- The fixed page template of render, instantiated by substitution: the
title argument (already escaped by the caller, as in the format invocation)
appears in both the head title slot and the h1 slot, every other argument
is inserted verbatim. -/
def assemblePage (title css in_header before_content text playground
    after_content : List Char) : List Char :=
  segHeadA ++ title ++ segHeadB ++ css ++ segHeadC ++ in_header ++
  segBodyA ++ before_content ++ segBodyB ++ title ++ segBodyC ++ text ++
  segBodyD ++ playground ++ segBodyE ++ after_content ++ segBodyF

/-- Observable side effects of one render invocation, in program order. -/
inductive Event where
  | readInput : Event
  | setPlaygroundToggle : Event
  | loadFragments : Event
  | openOutput : Event
  | resetHeaders : Event
  | renderBody : Event
  | writeOutput : Event
deriving DecidableEq

/-- The getopts matches consumed by render: the repeatable options as kept
lists (order preserved) and the optional playground url. -/
structure Matches where
  markdown_css : List String
  markdown_in_header : List String
  markdown_before_content : List String
  markdown_after_content : List String
  markdown_playground_url : Option String

/-- The external world of one render invocation: the filesystem, the path
stem operation of the standard library, whether File::create succeeds,
whether the final write succeeds, and the external MarkdownWithToc body
renderer. -/
structure Env where
  fs : String → LoadResult
  filestem : String → Option String
  createOk : Bool
  writeOk : Bool
  renderBody : List Char → List Char

/-- What one render invocation produced: its return value (none when the
invocation panics instead of returning), the event trace, and the page
written to the output file (some only when the final write succeeded). -/
structure RenderResult where
  exit : Option Int
  events : List Event
  written : Option (List Char)
deriving DecidableEq

/-- render: derive the output name from the input path stem (unwrap panics
when the stem is undefined), load the input (exit 1 unreadable, 2 not
UTF-8), set the process-wide playground toggle when a playground url was
supplied, load the three fragment sets (exit 3 on any failure), create the
output file (exit 4 on failure), split the leading metadata (exit 5 when
there is none), then reset headers, render the body and write the
assembled page (exit 6 when the write fails, else 0). -/
def render (env : Env) (input : String) (m : Matches) : RenderResult :=
  match env.filestem input with
  | none => ⟨none, [], none⟩
  | some _stem =>
    let css := cssLinks m.markdown_css
    match env.fs input with
    | .unreadable => ⟨some 1, [Event.readInput], none⟩
    | .notUtf8 => ⟨some 2, [Event.readInput], none⟩
    | .ok input_str =>
      let evs0 := Event.readInput ::
        (if m.markdown_playground_url.isSome then [Event.setPlaygroundToggle] else [])
      let playground := (m.markdown_playground_url.getD "").toList
      match load_external_files env.fs m.markdown_in_header,
            load_external_files env.fs m.markdown_before_content,
            load_external_files env.fs m.markdown_after_content with
      | some in_header, some before_content, some after_content =>
        let evs1 := evs0 ++ [Event.loadFragments, Event.openOutput]
        if env.createOk then
          let em := extract_leading_metadata input_str
          match em.1 with
          | [] => ⟨some 5, evs1, none⟩
          | title :: _ =>
            let evs2 := evs1 ++ [Event.resetHeaders, Event.renderBody, Event.writeOutput]
            let page := assemblePage (escapeHtml title) css in_header before_content
              (env.renderBody em.2) playground after_content
            if env.writeOk then ⟨some 0, evs2, some page⟩
            else ⟨some 6, evs2, none⟩
        else ⟨some 4, evs1, none⟩
      | _, _, _ => ⟨some 3, evs0 ++ [Event.loadFragments], none⟩

/-- All three fragment set loads succeed. -/
def fragsOk (env : Env) (m : Matches) : Prop :=
  (load_external_files env.fs m.markdown_in_header).isSome = true ∧
  (load_external_files env.fs m.markdown_before_content).isSome = true ∧
  (load_external_files env.fs m.markdown_after_content).isSome = true

instance (env : Env) (m : Matches) : Decidable (fragsOk env m) := by
  unfold fragsOk
  infer_instance

/-- What one test invocation produced: its return value and, when the
harness was reached, the argument vector it was invoked with. -/
structure TestResult where
  exit : Int
  harnessArgs : Option (List String)
deriving DecidableEq

/-- The external world of one test invocation: the filesystem, the example
extractor (find_testable_code filling the Collector, one entry per
testable block in document order), and the harness (its own pass or fail
reporting is opaque to this layer and its value is not consulted). -/
structure TestEnv where
  fs : String → LoadResult
  find_testable_code : List Char → List (List Char)
  test_main : List String → List (List Char) → Int

/-- test: load the input (exit 1 unreadable, 2 not UTF-8), collect the
testable code of the whole text, prepend the fixed program-name token to
the caller's test arguments, delegate to the harness, and return 0. -/
def test (env : TestEnv) (input : String) (test_args : List String) : TestResult :=
  match env.fs input with
  | .unreadable => ⟨1, none⟩
  | .notUtf8 => ⟨2, none⟩
  | .ok input_str =>
    let tests := env.find_testable_code input_str
    let args := "rustdoctest" :: test_args
    let _harness := env.test_main args tests
    ⟨0, some args⟩

/-- The outcome taxonomy of one render invocation. -/
inductive RenderOutcome where
  | Success : RenderOutcome
  | InputUnreadable : RenderOutcome
  | InputNotText : RenderOutcome
  | FragmentLoadFailed : RenderOutcome
  | OutputUnwritable : RenderOutcome
  | MissingMetadata : RenderOutcome
  | WriteFailed : RenderOutcome
deriving DecidableEq

/-- The exit code render actually returns for each outcome. -/
def exitCodeOf : RenderOutcome → Int
  | .Success => 0
  | .InputUnreadable => 1
  | .InputNotText => 2
  | .FragmentLoadFailed => 3
  | .OutputUnwritable => 4
  | .MissingMetadata => 5
  | .WriteFailed => 6

/-- The mapping the data-model sentence of the spec enumerates, in its
order Success, InputUnreadable, InputNotText, FragmentLoadFailed,
OutputUnwritable, WriteFailed, MissingMetadata against 0..6: written out
here only to be compared with the code. -/
def claimedExitCodeOf : RenderOutcome → Int
  | .Success => 0
  | .InputUnreadable => 1
  | .InputNotText => 2
  | .FragmentLoadFailed => 3
  | .OutputUnwritable => 4
  | .WriteFailed => 5
  | .MissingMetadata => 6

/-- The outcome of a non-panicking render invocation, read off the same
decision sequence render performs. -/
def classifyRender (env : Env) (input : String) (m : Matches) : RenderOutcome :=
  match env.fs input with
  | .unreadable => .InputUnreadable
  | .notUtf8 => .InputNotText
  | .ok input_str =>
    if ¬ fragsOk env m then .FragmentLoadFailed
    else if env.createOk = false then .OutputUnwritable
    else if (extract_leading_metadata input_str).1 = [] then .MissingMetadata
    else if env.writeOk = false then .WriteFailed
    else .Success

/-- Split a character list at every occurrence of a separator character. -/
def splitOnChar (c : Char) : List Char → List (List Char)
  | [] => [[]]
  | x :: xs =>
    match splitOnChar c xs with
    | [] => [[x]]
    | l :: ls => if x = c then [] :: l :: ls else (x :: l) :: ls

/-- Modelled from the spec: the standard library path operation filestem
used by render to derive the output file name (the repository's path
module is not among the given sources). The file name is the last slash
separated component; it is undefined for an empty name and for the special
components holding only dots, and the stem is the name with its extension
(the part after the last dot, for names with more than a leading dot)
removed. -/
def rustFilestem (p : String) : Option String :=
  let name := (splitOnChar '/' p.toList).getLastD []
  if name = [] ∨ name = ('.' :: []) ∨ name = ('.' :: '.' :: []) then none
  else
    let parts := splitOnChar '.' name
    if parts.length ≤ 1 then some (String.mk name)
    else if parts.headD [] = [] ∧ parts.length = 2 then some (String.mk name)
    else some (String.mk (List.intercalate ('.' :: []) parts.dropLast))

/-- A filesystem holding exactly one readable file. -/
def fsOnly (p0 : String) (doc : List Char) : String → LoadResult := fun p =>
  if p = p0 then .ok doc else .unreadable

/-- A render environment with the given document at doc.md, the standard
path stem operation, the given create and write outcomes, and the identity
body renderer. -/
def envOf (doc : List Char) (c w : Bool) : Env :=
  ⟨fsOnly "doc.md" doc, rustFilestem, c, w, fun t => t⟩

/-- Matches with no options supplied. -/
def mEmpty : Matches := ⟨[], [], [], [], none⟩

/-- The filesystem of the fragment-failure sample: the input document and
one of the two named fragment files load, the other does not. -/
def fsFragFail : String → LoadResult := fun p =>
  if p = "doc.md" then .ok ('%' :: 'T' :: [])
  else if p = "good" then .ok ('G' :: [])
  else .unreadable

/-- Environment of the fragment-failure sample. -/
def envFragFail : Env := ⟨fsFragFail, rustFilestem, true, true, fun t => t⟩

/-- Matches naming one loadable and one missing in-header fragment file. -/
def mFragFail : Matches := ⟨[], ("good" :: "bad" :: []), [], [], none⟩

/-- A filesystem holding one three-character fragment file with no trailing
newline. -/
def fsAbc : String → LoadResult := fun p =>
  if p = "frag" then .ok ('a' :: 'b' :: 'c' :: []) else .unreadable

/-- A test environment whose harness reports a failing status: the
pipeline's own exit code must ignore it. -/
def tenvSample : TestEnv := ⟨fun _ => .ok ('x' :: []), fun _ => [], fun _ _ => 7⟩

theorem extract_nil : extract_leading_metadata [] = ([], []) := by
  unfold extract_leading_metadata
  simp

theorem extract_meta (s : List Char)
    (h : (s.takeWhile (fun c => c != '\n')).head? = some '%') :
    extract_leading_metadata s =
      (trimLeft ((s.takeWhile (fun c => c != '\n')).drop 1) ::
        (extract_leading_metadata ((s.dropWhile (fun c => c != '\n')).tail)).1,
       (extract_leading_metadata ((s.dropWhile (fun c => c != '\n')).tail)).2) := by
  have hs : s ≠ [] := by
    intro h'
    subst h'
    simp at h
  rw [extract_leading_metadata]
  simp [hs, h]

theorem extract_stop (s : List Char) (hs : s ≠ [])
    (h : ¬ (s.takeWhile (fun c => c != '\n')).head? = some '%') :
    extract_leading_metadata s = ([], s) := by
  rw [extract_leading_metadata]
  simp [hs, h]

theorem rustLines_nil : rustLines [] = [] := by
  unfold rustLines
  simp

theorem rustLines_single (s : List Char) (hs : s ≠ [])
    (hd : s.dropWhile (fun c => c != '\n') = []) :
    rustLines s = [s.takeWhile (fun c => c != '\n')] := by
  rw [rustLines]
  simp [hs, hd]

theorem rustLines_cons (s : List Char)
    (hd : s.dropWhile (fun c => c != '\n') ≠ []) :
    rustLines s = s.takeWhile (fun c => c != '\n') ::
      rustLines ((s.dropWhile (fun c => c != '\n')).tail) := by
  have hs : s ≠ [] := by
    intro h
    subst h
    simp at hd
  rw [rustLines]
  simp [hs, hd]

theorem dropWhile_newline_head (s : List Char)
    (h : s.dropWhile (fun c => c != '\n') ≠ []) :
    (s.dropWhile (fun c => c != '\n')).head? = some '\n' := by
  induction s with
  | nil => simp at h
  | cons c cs ih =>
    by_cases hc : c = '\n'
    · subst hc
      simp [List.dropWhile]
    · rw [List.dropWhile_cons] at h ⊢
      simp only [bne_iff_ne, ne_eq, hc, not_false_eq_true, decide_True, if_true] at h ⊢
      exact ih h

theorem line_split (s : List Char) (h : s.dropWhile (fun c => c != '\n') ≠ []) :
    s = s.takeWhile (fun c => c != '\n') ++
      '\n' :: (s.dropWhile (fun c => c != '\n')).tail := by
  conv_lhs => rw [← List.takeWhile_append_dropWhile (p := fun c => c != '\n') (l := s)]
  congr 1
  have hh := dropWhile_newline_head s h
  cases hdw : s.dropWhile (fun c => c != '\n') with
  | nil => exact absurd hdw h
  | cons a t =>
    rw [hdw] at hh
    simp only [List.head?_cons, Option.some.injEq] at hh
    subst hh
    rfl

theorem line_no_newline (s : List Char) :
    '\n' ∉ s.takeWhile (fun c => c != '\n') := by
  intro hm
  have := List.mem_takeWhile_imp hm
  simp at this

/-- C4: for all input text, the metadata splitter returns a body that is a
byte-for-byte suffix of the original text starting at the first line whose
first character is not the marker, and a metadata list holding, in order,
each leading marker line with the marker and the following leading
whitespace stripped and the remaining content verbatim; when every line is
a marker line the body is empty. -/
theorem extract_leading_metadata_spec (s : List Char) :
    ∃ raw : List (List Char),
      (∀ l ∈ raw, l.head? = some '%' ∧ '\n' ∉ l) ∧
      (extract_leading_metadata s).1 = raw.map (fun l => trimLeft (l.drop 1)) ∧
      (∃ t, s = t ++ (extract_leading_metadata s).2) ∧
      (((extract_leading_metadata s).2 = [] ∧ raw = rustLines s ∧
          ∀ l ∈ rustLines s, l.head? = some '%') ∨
        ((extract_leading_metadata s).2 ≠ [] ∧
          s = (raw.map (fun l => l ++ '\n' :: [])).flatten ++ (extract_leading_metadata s).2 ∧
          ¬ ((extract_leading_metadata s).2.takeWhile (fun c => c != '\n')).head? = some '%')) ∧
      ((∀ l ∈ rustLines s, l.head? = some '%') → (extract_leading_metadata s).2 = []) := by
  generalize hn : s.length = n
  induction n using Nat.strong_induction_on generalizing s with
  | _ n ih =>
  by_cases hs : s = []
  · subst hs
    exact ⟨[], by simp, by simp [extract_nil], ⟨[], by simp [extract_nil]⟩,
      Or.inl ⟨by simp [extract_nil], by simp [rustLines_nil], by simp [rustLines_nil]⟩,
      fun _ => by simp [extract_nil]⟩
  · by_cases hp : (s.takeWhile (fun c => c != '\n')).head? = some '%'
    · by_cases hdw : s.dropWhile (fun c => c != '\n') = []
      · -- all of s is one metadata line with no trailing newline
        have hrest : (s.dropWhile (fun c => c != '\n')).tail = [] := by rw [hdw]; rfl
        have hext := extract_meta s hp
        rw [hrest, extract_nil] at hext
        have hsl : s = s.takeWhile (fun c => c != '\n') := by
          conv_lhs => rw [← List.takeWhile_append_dropWhile (p := fun c => c != '\n') (l := s)]
          rw [hdw]
          simp
        have hrl := rustLines_single s hs hdw
        refine ⟨[s.takeWhile (fun c => c != '\n')], ?_, ?_, ⟨s, by rw [hext]; simp⟩,
          Or.inl ⟨by rw [hext], by rw [hrl], ?_⟩, fun _ => by rw [hext]⟩
        · intro l hl
          rw [List.mem_singleton] at hl
          subst hl
          exact ⟨hp, line_no_newline s⟩
        · rw [hext]
          simp
        · intro l hl
          rw [hrl, List.mem_singleton] at hl
          subst hl
          exact hp
      · -- a metadata line followed by a newline and the remainder
        have hsplit := line_split s hdw
        have hlen : ((s.dropWhile (fun c => c != '\n')).tail).length < n := by
          have h1 : (s.dropWhile (fun c => c != '\n')).length ≤ s.length :=
            (List.dropWhile_suffix (fun c => c != '\n')).length_le
          have h2 : (s.dropWhile (fun c => c != '\n')).length ≠ 0 := by
            simpa [List.length_eq_zero] using hdw
          rw [← hn]
          simp only [List.length_tail]
          omega
        obtain ⟨raw', hr1, hr2, hr3, hr4, hr5⟩ :=
          ih ((s.dropWhile (fun c => c != '\n')).tail).length hlen _ rfl
        have hext := extract_meta s hp
        have hrl := rustLines_cons s hdw
        refine ⟨s.takeWhile (fun c => c != '\n') :: raw', ?_, ?_, ?_, ?_, ?_⟩
        · intro l hl
          rcases List.mem_cons.mp hl with h | h
          · subst h
            exact ⟨hp, line_no_newline s⟩
          · exact hr1 l h
        · rw [hext]
          simp only [List.map_cons]
          rw [hr2]
        · obtain ⟨t, ht⟩ := hr3
          refine ⟨s.takeWhile (fun c => c != '\n') ++ '\n' :: t, ?_⟩
          rw [hext]
          conv_lhs => rw [hsplit, ht]
          simp
        · rcases hr4 with ⟨hb, hraw, hall⟩ | ⟨hb, heq, hhd⟩
          · refine Or.inl ⟨by rw [hext]; exact hb, by rw [hrl, hraw], ?_⟩
            rw [hrl]
            intro l hl
            rcases List.mem_cons.mp hl with h | h
            · subst h
              exact hp
            · exact hall l (hraw ▸ h)
          · refine Or.inr ⟨by rw [hext]; exact hb, ?_, by rw [hext]; exact hhd⟩
            rw [hext, List.map_cons, List.flatten_cons]
            conv_lhs => rw [hsplit, heq]
            simp
        · intro hall
          rw [hrl] at hall
          rw [hext]
          exact hr5 (fun l hl => hall l (List.mem_cons_of_mem _ hl))
    · -- the first line is not metadata: the whole text is the body
      have hext := extract_stop s hs hp
      refine ⟨[], by simp, by simp [hext], ⟨[], by simp [hext]⟩,
        Or.inr ⟨by simpa [hext] using hs, by simp [hext], by simpa [hext] using hp⟩, ?_⟩
      intro hall
      have hline : s.takeWhile (fun c => c != '\n') ∈ rustLines s := by
        by_cases hdw : s.dropWhile (fun c => c != '\n') = []
        · rw [rustLines_single s hs hdw]
          simp
        · rw [rustLines_cons s hdw]
          simp
      exact absurd (hall _ hline) hp

theorem render_panic (env : Env) (input : String) (m : Matches)
    (h : env.filestem input = none) :
    render env input m = ⟨none, [], none⟩ := by
  simp [render, h]

theorem render_unreadable (env : Env) (input : String) (m : Matches) (st : String)
    (hst : env.filestem input = some st) (hfs : env.fs input = .unreadable) :
    render env input m = ⟨some 1, [Event.readInput], none⟩ := by
  simp [render, hst, hfs]

theorem render_notUtf8 (env : Env) (input : String) (m : Matches) (st : String)
    (hst : env.filestem input = some st) (hfs : env.fs input = .notUtf8) :
    render env input m = ⟨some 2, [Event.readInput], none⟩ := by
  simp [render, hst, hfs]

theorem render_frag_fail (env : Env) (input : String) (m : Matches) (st : String)
    (s : List Char)
    (hst : env.filestem input = some st) (hfs : env.fs input = .ok s)
    (hfr : ¬ fragsOk env m) :
    render env input m = ⟨some 3, Event.readInput ::
      (if m.markdown_playground_url.isSome then [Event.setPlaygroundToggle] else []) ++
      [Event.loadFragments], none⟩ := by
  unfold fragsOk at hfr
  cases h1 : load_external_files env.fs m.markdown_in_header with
  | none => simp [render, hst, hfs, h1]
  | some a =>
    cases h2 : load_external_files env.fs m.markdown_before_content with
    | none => simp [render, hst, hfs, h1, h2]
    | some b =>
      cases h3 : load_external_files env.fs m.markdown_after_content with
      | none => simp [render, hst, hfs, h1, h2, h3]
      | some c =>
        exact absurd ⟨by simp [h1], by simp [h2], by simp [h3]⟩ hfr

theorem render_create_fail (env : Env) (input : String) (m : Matches) (st : String)
    (s ihc bc ac : List Char)
    (hst : env.filestem input = some st) (hfs : env.fs input = .ok s)
    (h1 : load_external_files env.fs m.markdown_in_header = some ihc)
    (h2 : load_external_files env.fs m.markdown_before_content = some bc)
    (h3 : load_external_files env.fs m.markdown_after_content = some ac)
    (hc : env.createOk = false) :
    render env input m = ⟨some 4, Event.readInput ::
      (if m.markdown_playground_url.isSome then [Event.setPlaygroundToggle] else []) ++
      [Event.loadFragments, Event.openOutput], none⟩ := by
  simp [render, hst, hfs, h1, h2, h3, hc]

theorem render_missing_meta (env : Env) (input : String) (m : Matches) (st : String)
    (s ihc bc ac : List Char)
    (hst : env.filestem input = some st) (hfs : env.fs input = .ok s)
    (h1 : load_external_files env.fs m.markdown_in_header = some ihc)
    (h2 : load_external_files env.fs m.markdown_before_content = some bc)
    (h3 : load_external_files env.fs m.markdown_after_content = some ac)
    (hc : env.createOk = true)
    (hm : (extract_leading_metadata s).1 = []) :
    render env input m = ⟨some 5, Event.readInput ::
      (if m.markdown_playground_url.isSome then [Event.setPlaygroundToggle] else []) ++
      [Event.loadFragments, Event.openOutput], none⟩ := by
  simp [render, hst, hfs, h1, h2, h3, hc, hm]

theorem render_write_fail (env : Env) (input : String) (m : Matches) (st : String)
    (s ihc bc ac title : List Char) (rest : List (List Char))
    (hst : env.filestem input = some st) (hfs : env.fs input = .ok s)
    (h1 : load_external_files env.fs m.markdown_in_header = some ihc)
    (h2 : load_external_files env.fs m.markdown_before_content = some bc)
    (h3 : load_external_files env.fs m.markdown_after_content = some ac)
    (hc : env.createOk = true)
    (hm : (extract_leading_metadata s).1 = title :: rest)
    (hw : env.writeOk = false) :
    render env input m = ⟨some 6, Event.readInput ::
      (if m.markdown_playground_url.isSome then [Event.setPlaygroundToggle] else []) ++
      [Event.loadFragments, Event.openOutput, Event.resetHeaders, Event.renderBody,
        Event.writeOutput], none⟩ := by
  simp [render, hst, hfs, h1, h2, h3, hc, hm, hw]

theorem render_success (env : Env) (input : String) (m : Matches) (st : String)
    (s ihc bc ac title : List Char) (rest : List (List Char))
    (hst : env.filestem input = some st) (hfs : env.fs input = .ok s)
    (h1 : load_external_files env.fs m.markdown_in_header = some ihc)
    (h2 : load_external_files env.fs m.markdown_before_content = some bc)
    (h3 : load_external_files env.fs m.markdown_after_content = some ac)
    (hc : env.createOk = true)
    (hm : (extract_leading_metadata s).1 = title :: rest)
    (hw : env.writeOk = true) :
    render env input m = ⟨some 0, Event.readInput ::
      (if m.markdown_playground_url.isSome then [Event.setPlaygroundToggle] else []) ++
      [Event.loadFragments, Event.openOutput, Event.resetHeaders, Event.renderBody,
        Event.writeOutput],
      some (assemblePage (escapeHtml title) (cssLinks m.markdown_css) ihc bc
        (env.renderBody (extract_leading_metadata s).2)
        ((m.markdown_playground_url.getD "").toList) ac)⟩ := by
  simp [render, hst, hfs, h1, h2, h3, hc, hm, hw]

/-- C1: for every non-panicking render invocation the returned exit code is
one of 0..6, determined by the first failing stage of the linear pipeline
input load (1 unreadable, 2 not UTF-8), fragment load (3), output open
(4), metadata presence (5), final write (6), with 0 on success; every
failure is terminal: on 1 and 2 only the input read happened, on 3 the
output was never opened, on 3, 4 and 5 the renderer never ran and nothing
was written, and on every failure no page is produced. -/
theorem render_exit_code_classification (env : Env) (input : String) (m : Matches)
    (h : (env.filestem input).isSome = true) :
    ∃ c : Int, (render env input m).exit = some c ∧ 0 ≤ c ∧ c ≤ 6 ∧
      c = (match env.fs input with
           | .unreadable => 1
           | .notUtf8 => 2
           | .ok input_str =>
             if ¬ fragsOk env m then 3
             else if env.createOk = false then 4
             else if (extract_leading_metadata input_str).1 = [] then 5
             else if env.writeOk = false then 6
             else 0) ∧
      ((c = 1 ∨ c = 2) → (render env input m).events = [Event.readInput]) ∧
      (c = 3 → Event.openOutput ∉ (render env input m).events) ∧
      ((c = 3 ∨ c = 4 ∨ c = 5) → Event.renderBody ∉ (render env input m).events ∧
        Event.writeOutput ∉ (render env input m).events) ∧
      (c ≠ 0 → (render env input m).written = none) := by
  obtain ⟨st, hst⟩ := Option.isSome_iff_exists.mp h
  cases hb : m.markdown_playground_url.isSome with
  | _ =>
    cases hfs : env.fs input with
    | unreadable =>
      have hr := render_unreadable env input m st hst hfs
      exact ⟨1, by rw [hr], by norm_num, by norm_num, by simp [hfs],
        fun _ => by rw [hr], by simp, by simp, fun _ => by rw [hr]⟩
    | notUtf8 =>
      have hr := render_notUtf8 env input m st hst hfs
      exact ⟨2, by rw [hr], by norm_num, by norm_num, by simp [hfs],
        fun _ => by rw [hr], by simp, by simp, fun _ => by rw [hr]⟩
    | ok s =>
      by_cases hfr : fragsOk env m
      · obtain ⟨hf1, hf2, hf3⟩ := hfr
        obtain ⟨ihc, h1⟩ := Option.isSome_iff_exists.mp hf1
        obtain ⟨bc, h2⟩ := Option.isSome_iff_exists.mp hf2
        obtain ⟨ac, h3⟩ := Option.isSome_iff_exists.mp hf3
        cases hc : env.createOk with
        | false =>
          have hr := render_create_fail env input m st s ihc bc ac hst hfs h1 h2 h3 hc
          refine ⟨4, by rw [hr], by norm_num, by norm_num,
            by simp [hfs, fragsOk, h1, h2, h3, hc],
            by simp, by simp, ?_, fun _ => by rw [hr]⟩
          intro _
          rw [hr]
          simp [hb]
        | true =>
          cases hm : (extract_leading_metadata s).1 with
          | nil =>
            have hr := render_missing_meta env input m st s ihc bc ac hst hfs h1 h2 h3 hc hm
            refine ⟨5, by rw [hr], by norm_num, by norm_num,
              by simp [hfs, fragsOk, h1, h2, h3, hc, hm],
              by simp, by simp, ?_, fun _ => by rw [hr]⟩
            intro _
            rw [hr]
            simp [hb]
          | cons title rest =>
            cases hw : env.writeOk with
            | false =>
              have hr := render_write_fail env input m st s ihc bc ac title rest
                hst hfs h1 h2 h3 hc hm hw
              exact ⟨6, by rw [hr], by norm_num, by norm_num,
                by simp [hfs, fragsOk, h1, h2, h3, hc, hm, hw],
                by simp, by simp, by simp, fun _ => by rw [hr]⟩
            | true =>
              have hr := render_success env input m st s ihc bc ac title rest
                hst hfs h1 h2 h3 hc hm hw
              exact ⟨0, by rw [hr], by norm_num, by norm_num,
                by simp [hfs, fragsOk, h1, h2, h3, hc, hm, hw],
                by simp, by simp, by simp, fun h0 => absurd rfl h0⟩
      · have hr := render_frag_fail env input m st s hst hfs hfr
        refine ⟨3, by rw [hr], by norm_num, by norm_num, by simp [hfs, hfr],
          by simp, ?_, ?_, fun _ => by rw [hr]⟩
        · intro _
          rw [hr]
          simp [hb]
        · intro _
          rw [hr]
          constructor <;> simp [hb]

theorem extract_pT : extract_leading_metadata ('%' :: 'T' :: []) = (('T' :: []) :: [], []) := by
  have h1 := extract_meta ('%' :: 'T' :: []) (by decide)
  rw [(by decide : (('%' :: 'T' :: [] : List Char).dropWhile (fun c => c != '\n')).tail = []),
    extract_nil] at h1
  rw [h1]
  decide

theorem extract_title_body :
    extract_leading_metadata ('%' :: ' ' :: '<' :: '&' :: '\n' :: 'B' :: []) =
      (('<' :: '&' :: []) :: [], 'B' :: []) := by
  have h1 := extract_meta ('%' :: ' ' :: '<' :: '&' :: '\n' :: 'B' :: []) (by decide)
  rw [(by decide :
      (('%' :: ' ' :: '<' :: '&' :: '\n' :: 'B' :: [] : List Char).dropWhile
        (fun c => c != '\n')).tail = ('B' :: [])),
    extract_stop ('B' :: []) (by decide) (by decide)] at h1
  rw [h1]
  decide

theorem render_exit_code_classification_witness :
    ∃ c : Int, (render (envOf ('%' :: 'T' :: []) true true) "doc.md" mEmpty).exit = some c ∧
      0 ≤ c ∧ c ≤ 6 := by
  obtain ⟨c, hc, h0, h6, -⟩ :=
    render_exit_code_classification (envOf ('%' :: 'T' :: []) true true) "doc.md" mEmpty
      (by decide)
  exact ⟨c, hc, h0, h6⟩

/-- C2 counterexample: the spec's enumerated order assigns WriteFailed the
exit code 5 and MissingMetadata 6, but a render invocation whose document
has no metadata exits with 5 and one whose final write fails exits with
6. -/
theorem render_outcome_order_counterexample :
    claimedExitCodeOf RenderOutcome.WriteFailed = 5 ∧
    claimedExitCodeOf RenderOutcome.MissingMetadata = 6 ∧
    (render (envOf ('B' :: []) true true) "doc.md" mEmpty).exit = some 5 ∧
    (render (envOf ('%' :: 'T' :: []) true false) "doc.md" mEmpty).exit = some 6 ∧
    (5 : Int) ≠ 6 := by
  refine ⟨rfl, rfl, ?_, ?_, by norm_num⟩
  · rw [render_missing_meta (envOf ('B' :: []) true true) "doc.md" mEmpty "doc"
      ('B' :: []) [] [] [] (by decide) (by decide) rfl rfl rfl rfl
      (by rw [extract_stop ('B' :: []) (by decide) (by decide)])]
  · rw [render_write_fail (envOf ('%' :: 'T' :: []) true false) "doc.md" mEmpty "doc"
      ('%' :: 'T' :: []) [] [] [] ('T' :: []) [] (by decide) (by decide) rfl rfl rfl rfl
      (by rw [extract_pT]) rfl]

/-- C2 (amended): the RenderOutcome variants map 1:1 to exit codes 0..6 in
the order Success, InputUnreadable, InputNotText, FragmentLoadFailed,
OutputUnwritable, MissingMetadata, WriteFailed: every non-panicking render
invocation exits with the code of its classified outcome, and the mapping
is injective. -/
theorem render_outcome_exit_codes (env : Env) (input : String) (m : Matches)
    (h : (env.filestem input).isSome = true) :
    (render env input m).exit = some (exitCodeOf (classifyRender env input m)) ∧
    ∀ o p : RenderOutcome, exitCodeOf o = exitCodeOf p → o = p := by
  constructor
  · obtain ⟨st, hst⟩ := Option.isSome_iff_exists.mp h
    cases hfs : env.fs input with
    | unreadable =>
      rw [render_unreadable env input m st hst hfs]
      simp [classifyRender, hfs, exitCodeOf]
    | notUtf8 =>
      rw [render_notUtf8 env input m st hst hfs]
      simp [classifyRender, hfs, exitCodeOf]
    | ok s =>
      by_cases hfr : fragsOk env m
      · obtain ⟨hf1, hf2, hf3⟩ := hfr
        obtain ⟨ihc, h1⟩ := Option.isSome_iff_exists.mp hf1
        obtain ⟨bc, h2⟩ := Option.isSome_iff_exists.mp hf2
        obtain ⟨ac, h3⟩ := Option.isSome_iff_exists.mp hf3
        have hfr' : fragsOk env m := ⟨hf1, hf2, hf3⟩
        cases hc : env.createOk with
        | false =>
          rw [render_create_fail env input m st s ihc bc ac hst hfs h1 h2 h3 hc]
          simp [classifyRender, hfs, hfr', hc, exitCodeOf]
        | true =>
          cases hm : (extract_leading_metadata s).1 with
          | nil =>
            rw [render_missing_meta env input m st s ihc bc ac hst hfs h1 h2 h3 hc hm]
            simp [classifyRender, hfs, hfr', hc, hm, exitCodeOf]
          | cons title rest =>
            cases hw : env.writeOk with
            | false =>
              rw [render_write_fail env input m st s ihc bc ac title rest
                hst hfs h1 h2 h3 hc hm hw]
              simp [classifyRender, hfs, hfr', hc, hm, hw, exitCodeOf]
            | true =>
              rw [render_success env input m st s ihc bc ac title rest
                hst hfs h1 h2 h3 hc hm hw]
              simp [classifyRender, hfs, hfr', hc, hm, hw, exitCodeOf]
      · rw [render_frag_fail env input m st s hst hfs hfr]
        simp [classifyRender, hfs, hfr, exitCodeOf]
  · intro o p hop
    cases o <;> cases p <;> simp_all [exitCodeOf]

theorem render_outcome_exit_codes_witness :
    (render (envOf ('%' :: 'T' :: []) true true) "doc.md" mEmpty).exit =
      some (exitCodeOf
        (classifyRender (envOf ('%' :: 'T' :: []) true true) "doc.md" mEmpty)) :=
  (render_outcome_exit_codes (envOf ('%' :: 'T' :: []) true true) "doc.md" mEmpty
    (by decide)).1

/-- C3 counterexample: a render invocation with no playground url supplied
completes successfully without ever setting the process-wide playground
toggle, contrary to the claim that the toggle is set in that case. -/
theorem playground_toggle_counterexample :
    mEmpty.markdown_playground_url = none ∧
    (render (envOf ('%' :: 'T' :: []) true true) "doc.md" mEmpty).exit = some 0 ∧
    Event.setPlaygroundToggle ∉
      (render (envOf ('%' :: 'T' :: []) true true) "doc.md" mEmpty).events := by
  have hr := render_success (envOf ('%' :: 'T' :: []) true true) "doc.md" mEmpty "doc"
    ('%' :: 'T' :: []) [] [] [] ('T' :: []) [] (by decide) (by decide) rfl rfl rfl rfl
    (by rw [extract_pT]) rfl
  refine ⟨rfl, ?_, ?_⟩
  · rw [hr]
  · rw [hr]
    decide

/-- C3 (amended): when the caller supplies no playground url, the assembled
page's playground slot is substituted with the empty string and the
process-wide playground toggle is left untouched; the toggle is set,
before the external body renderer is invoked, exactly when the caller does
supply a playground url. -/
theorem render_playground_toggle (env : Env) (input : String) (m : Matches)
    (st : String) (s ihc bc ac title : List Char) (rest : List (List Char))
    (hst : env.filestem input = some st) (hfs : env.fs input = .ok s)
    (h1 : load_external_files env.fs m.markdown_in_header = some ihc)
    (h2 : load_external_files env.fs m.markdown_before_content = some bc)
    (h3 : load_external_files env.fs m.markdown_after_content = some ac)
    (hc : env.createOk = true)
    (hm : (extract_leading_metadata s).1 = title :: rest)
    (hw : env.writeOk = true) :
    (m.markdown_playground_url = none →
      Event.setPlaygroundToggle ∉ (render env input m).events ∧
      (render env input m).written = some (assemblePage (escapeHtml title)
        (cssLinks m.markdown_css) ihc bc
        (env.renderBody (extract_leading_metadata s).2) [] ac)) ∧
    (m.markdown_playground_url.isSome = true →
      ∃ pre post, (render env input m).events = pre ++ Event.renderBody :: post ∧
        Event.setPlaygroundToggle ∈ pre) := by
  have hr := render_success env input m st s ihc bc ac title rest hst hfs h1 h2 h3 hc hm hw
  constructor
  · intro hpg
    rw [hr]
    constructor
    · simp [hpg]
    · simp [hpg]
  · intro hpg
    rw [hr]
    refine ⟨Event.readInput ::
      (if m.markdown_playground_url.isSome then [Event.setPlaygroundToggle] else []) ++
      [Event.loadFragments, Event.openOutput, Event.resetHeaders],
      [Event.writeOutput], ?_, ?_⟩
    · simp
    · simp [hpg]

theorem render_playground_toggle_witness :
    Event.setPlaygroundToggle ∉
      (render (envOf ('%' :: '2' :: []) true true) "doc.md" mEmpty).events :=
  ((render_playground_toggle (envOf ('%' :: '2' :: []) true true) "doc.md" mEmpty "doc"
    ('%' :: '2' :: []) [] [] [] ('2' :: []) [] (by decide) (by decide) rfl rfl rfl rfl
    (by
      have h1 := extract_meta ('%' :: '2' :: []) (by decide)
      rw [(by decide : (('%' :: '2' :: [] : List Char).dropWhile (fun c => c != '\n')).tail = []),
        extract_nil] at h1
      rw [h1]
      decide) rfl).1 rfl).1

/-- C7: in every assembled page the title is HTML-escaped in both the head
title slot and the h1 title slot, while the rendered body, the three
fragments, the stylesheet links and the playground url are inserted
verbatim. -/
theorem render_escapes_title_only (env : Env) (input : String) (m : Matches)
    (st : String) (s ihc bc ac title : List Char) (rest : List (List Char))
    (hst : env.filestem input = some st) (hfs : env.fs input = .ok s)
    (h1 : load_external_files env.fs m.markdown_in_header = some ihc)
    (h2 : load_external_files env.fs m.markdown_before_content = some bc)
    (h3 : load_external_files env.fs m.markdown_after_content = some ac)
    (hc : env.createOk = true)
    (hm : (extract_leading_metadata s).1 = title :: rest)
    (hw : env.writeOk = true) :
    (render env input m).written = some (
      segHeadA ++ escapeHtml title ++ segHeadB ++ cssLinks m.markdown_css ++
      segHeadC ++ ihc ++ segBodyA ++ bc ++ segBodyB ++ escapeHtml title ++
      segBodyC ++ env.renderBody (extract_leading_metadata s).2 ++ segBodyD ++
      (m.markdown_playground_url.getD "").toList ++ segBodyE ++ ac ++ segBodyF) := by
  rw [render_success env input m st s ihc bc ac title rest hst hfs h1 h2 h3 hc hm hw]
  rfl

theorem render_escapes_title_only_witness :
    (render (envOf ('%' :: ' ' :: '<' :: '&' :: '\n' :: 'B' :: []) true true)
        "doc.md" mEmpty).written = some (
      segHeadA ++ escapeHtml ('<' :: '&' :: []) ++ segHeadB ++ cssLinks [] ++
      segHeadC ++ [] ++ segBodyA ++ [] ++ segBodyB ++ escapeHtml ('<' :: '&' :: []) ++
      segBodyC ++ ((envOf ('%' :: ' ' :: '<' :: '&' :: '\n' :: 'B' :: []) true true).renderBody
        (extract_leading_metadata ('%' :: ' ' :: '<' :: '&' :: '\n' :: 'B' :: [])).2) ++
      segBodyD ++ [] ++ segBodyE ++ [] ++ segBodyF) ∧
    escapeHtml ('<' :: '&' :: []) =
      ('&' :: 'l' :: 't' :: ';' :: '&' :: 'a' :: 'm' :: 'p' :: ';' :: []) :=
  ⟨render_escapes_title_only (envOf ('%' :: ' ' :: '<' :: '&' :: '\n' :: 'B' :: []) true true)
    "doc.md" mEmpty "doc" ('%' :: ' ' :: '<' :: '&' :: '\n' :: 'B' :: []) [] [] []
    ('<' :: '&' :: []) [] (by decide) (by decide) rfl rfl rfl rfl
    (by rw [extract_title_body]) rfl, by decide⟩

/-- C9: whenever the file stem of the input path is undefined (as it is for
the empty path and for ..), render panics on the unwrap deriving the
output file name: no exit code is returned, no file is read and nothing is
written. -/
theorem render_panics_without_filestem (env : Env) (input : String) (m : Matches)
    (h : env.filestem input = none) :
    (render env input m).exit = none ∧ (render env input m).events = [] ∧
    (render env input m).written = none ∧
    rustFilestem "" = none ∧ rustFilestem ".." = none := by
  rw [render_panic env input m h]
  exact ⟨rfl, rfl, rfl, by decide, by decide⟩

theorem render_panics_without_filestem_witness :
    (render (envOf ('%' :: 'T' :: []) true true) "" mEmpty).exit = none ∧
    (render (envOf ('%' :: 'T' :: []) true true) "" mEmpty).events = [] :=
  ⟨(render_panics_without_filestem (envOf ('%' :: 'T' :: []) true true) "" mEmpty
      (by decide)).1,
   (render_panics_without_filestem (envOf ('%' :: 'T' :: []) true true) "" mEmpty
      (by decide)).2.1⟩

/-- C10: a render invocation whose input and fragments load but whose
document has no directive line returns exit code 5 only after the output
file has been opened and created, and nothing is ever written to it, so
the failure leaves behind a newly created empty output file. -/
theorem render_missing_metadata_after_create (env : Env) (input : String) (m : Matches)
    (st : String) (s ihc bc ac : List Char)
    (hst : env.filestem input = some st) (hfs : env.fs input = .ok s)
    (h1 : load_external_files env.fs m.markdown_in_header = some ihc)
    (h2 : load_external_files env.fs m.markdown_before_content = some bc)
    (h3 : load_external_files env.fs m.markdown_after_content = some ac)
    (hc : env.createOk = true)
    (hm : (extract_leading_metadata s).1 = []) :
    (render env input m).exit = some 5 ∧
    Event.openOutput ∈ (render env input m).events ∧
    Event.writeOutput ∉ (render env input m).events ∧
    (render env input m).written = none := by
  rw [render_missing_meta env input m st s ihc bc ac hst hfs h1 h2 h3 hc hm]
  refine ⟨rfl, ?_, ?_, rfl⟩ <;>
    cases hb : m.markdown_playground_url.isSome <;> simp [hb]

theorem render_missing_metadata_after_create_witness :
    (render (envOf [] true true) "doc.md" mEmpty).exit = some 5 ∧
    Event.openOutput ∈ (render (envOf [] true true) "doc.md" mEmpty).events := by
  have h := render_missing_metadata_after_create (envOf [] true true) "doc.md" mEmpty
    "doc" [] [] [] [] (by decide) (by decide) rfl rfl rfl rfl (by rw [extract_nil])
  exact ⟨h.1, h.2.1⟩

/-- C5: the fragment loader returns the empty text for an empty path list,
the concatenation of each file's content followed by exactly one appended
newline when every file loads, and None when any single file fails to
load. -/
theorem load_external_files_spec (fs : String → LoadResult) (names : List String) :
    (names = [] → load_external_files fs names = some []) ∧
    ((∀ n ∈ names, (fs n).isOk = true) →
      load_external_files fs names =
        some ((names.map (fun n => (fs n).okContent ++ '\n' :: [])).flatten)) ∧
    ((∃ n ∈ names, (fs n).isOk = false) → load_external_files fs names = none) := by
  refine ⟨?_, ?_, ?_⟩
  · intro h
    subst h
    rfl
  · intro h
    induction names with
    | nil => rfl
    | cons a rest ih =>
      have ha := h a (List.mem_cons_self a rest)
      cases hfa : fs a with
      | ok s =>
        have hrest := ih (fun n hn => h n (List.mem_cons_of_mem _ hn))
        simp [load_external_files, hfa, hrest, LoadResult.okContent]
      | unreadable =>
        rw [hfa] at ha
        simp [LoadResult.isOk] at ha
      | notUtf8 =>
        rw [hfa] at ha
        simp [LoadResult.isOk] at ha
  · intro h
    induction names with
    | nil =>
      obtain ⟨n, hn, -⟩ := h
      simp at hn
    | cons a rest ih =>
      obtain ⟨n, hn, hbad⟩ := h
      rcases List.mem_cons.mp hn with h' | hmem
      · subst h'
        cases hfa : fs n with
        | ok s =>
          rw [hfa] at hbad
          simp [LoadResult.isOk] at hbad
        | unreadable => simp [load_external_files, hfa]
        | notUtf8 => simp [load_external_files, hfa]
      · have hr := ih ⟨n, hmem, hbad⟩
        cases hfa : fs a with
        | ok s => simp [load_external_files, hfa, hr]
        | unreadable => simp [load_external_files, hfa]
        | notUtf8 => simp [load_external_files, hfa]

theorem load_external_files_spec_witness :
    load_external_files fsAbc ("frag" :: []) = some ('a' :: 'b' :: 'c' :: '\n' :: []) := by
  have h := (load_external_files_spec fsAbc ("frag" :: [])).2.1 (by decide)
  rw [h]
  decide

/-- C8: the test pipeline returns 1 when the input is unreadable and 2 when
it is not valid UTF-8; in every other case it returns 0 regardless of the
harness's own outcome, and the harness receives the fixed document-test
token followed by all caller-supplied test arguments in order. -/
theorem test_pipeline_spec (env : TestEnv) (input : String) (args : List String) :
    (env.fs input = .unreadable → test env input args = ⟨1, none⟩) ∧
    (env.fs input = .notUtf8 → test env input args = ⟨2, none⟩) ∧
    (∀ s, env.fs input = .ok s → (test env input args).exit = 0 ∧
      (test env input args).harnessArgs = some ("rustdoctest" :: args)) :=
  ⟨fun h => by simp [test, h],
   fun h => by simp [test, h],
   fun s h => by simp [test, h]⟩

theorem test_pipeline_spec_witness :
    (test tenvSample "doc.md" ("--filter" :: [])).exit = 0 ∧
    (test tenvSample "doc.md" ("--filter" :: [])).harnessArgs =
      some ("rustdoctest" :: "--filter" :: []) :=
  (test_pipeline_spec tenvSample "doc.md" ("--filter" :: [])).2.2 ('x' :: []) rfl

/-- C6: a render invocation whose input loads but with at least one failing
fragment file returns exit code 3 and the output file is never opened,
created or modified: the output is only opened after all fragment loading
succeeded. -/
theorem render_fragment_failure_no_output (env : Env) (input : String) (m : Matches)
    (st : String) (s : List Char)
    (hst : env.filestem input = some st) (hfs : env.fs input = .ok s)
    (hfr : ¬ fragsOk env m) :
    (render env input m).exit = some 3 ∧
    Event.openOutput ∉ (render env input m).events ∧
    (render env input m).written = none := by
  rw [render_frag_fail env input m st s hst hfs hfr]
  refine ⟨rfl, ?_, rfl⟩
  cases hb : m.markdown_playground_url.isSome <;> simp [hb]

theorem render_fragment_failure_no_output_witness :
    (render envFragFail "doc.md" mFragFail).exit = some 3 ∧
    Event.openOutput ∉ (render envFragFail "doc.md" mFragFail).events := by
  have h := render_fragment_failure_no_output envFragFail "doc.md" mFragFail "doc"
    ('%' :: 'T' :: []) (by decide) (by decide) (by decide)
  exact ⟨h.1, h.2.1⟩
